import Mathlib

/-!
Verification of the arduinomorse library (src/morse.h and the sketch file).

The header `src/morse.h` declares the timing constants, the `MORSE` lookup
table, and the `MorseSender` class interface.  The member-function bodies
(`fillTimings`, `startSending`, `continueSending`, the constructors) are not
part of the sources available here, so those operations are modelled from the
specification's description of them; each such definition carries a doc
comment starting with `Modelled from the spec:`.  Everything about the
constants and the `MORSE` table is translated directly from `src/morse.h`.
-/

namespace ArduinoMorse

/-! ## Timing constants (src/morse.h lines 15-24) -/

/-- `#define UNIT 100` (milliseconds). -/
def UNIT : Nat := 100

/-- `#define DIT UNIT`. -/
def DIT : Nat := UNIT

/-- `#define DAH 3*UNIT`. -/
def DAH : Nat := 3 * UNIT

/-- `#define END 0` — the sentinel terminating each letter's timing row. -/
def END : Nat := 0

/-- `#define MAX_TIMINGS 10` — capacity bound for the timing buffer
(`timingBuffer[MAX_TIMINGS+1]`). -/
def MAX_TIMINGS : Nat := 10

/-! ## The MORSE table (src/morse.h lines 27-54)

`const morseTiming_t MORSE[26][5]` is a C++ aggregate: each row lists its
initializers and any remaining elements are value-initialized to 0.  `padRow`
realizes that zero-padding, so every row below is written with exactly the
initializers appearing in the source. -/

/-- C++ aggregate initialization: elements past the initializer list are
zero-initialized, giving every row exactly 5 entries. -/
def padRow (l : List Nat) : List Nat := l ++ List.replicate (5 - l.length) 0

/-- The letter table, rows `a`..`z`, each row transcribed from src/morse.h. -/
def MORSE : List (List Nat) := [
  padRow [DIT, DAH, END],                -- a
  padRow [DAH, DIT, DIT, DIT, END],      -- b
  padRow [DAH, DIT, DAH, DIT, END],      -- c
  padRow [DAH, DIT, DIT, END],           -- d
  padRow [DIT, END],                     -- e
  padRow [DIT, DIT, DAH, DIT, END],      -- f
  padRow [DAH, DAH, DIT, END],           -- g
  padRow [DIT, DIT, DIT, DIT, END],      -- h
  padRow [DIT, DIT, END],                -- i
  padRow [DIT, DAH, DAH, DAH, END],      -- j
  padRow [DAH, DIT, DAH, END],           -- k
  padRow [DIT, DAH, DIT, DIT, END],      -- l
  padRow [DAH, DAH, END],                -- m
  padRow [DAH, DIT, END],                -- n
  padRow [DAH, DAH, DAH, END],           -- o
  padRow [DIT, DAH, DAH, DIT, END],      -- p
  padRow [DAH, DAH, DIT, DAH, END],      -- q
  padRow [DIT, DAH, DIT, END],           -- r
  padRow [DIT, DIT, DIT, END],           -- s
  padRow [DAH, END],                     -- t
  padRow [DIT, DIT, DAH, END],           -- u
  padRow [DIT, DIT, DIT, DAH],           -- v (only four initializers in the source)
  padRow [DIT, DAH, DAH, END],           -- w
  padRow [DAH, DIT, DIT, DAH, END],      -- x
  padRow [DAH, DIT, DAH, DAH, END],      -- y
  padRow [DAH, DAH, DIT, DIT, END]]      -- z

/-- Row `i` of the table (`MORSE[i]`). -/
def row (i : Nat) : List Nat := MORSE.getD i []

/-- The pulses of letter `i`: the entries of its row before the first
sentinel, exactly what the `while(letterTimings[...] != END)` style scan
of the buffer-fill step consumes. -/
def pulsesOf (i : Nat) : List Nat := (row i).takeWhile (fun d => d ≠ END)

/-! ## Canonical International Morse Code (for the refinement claim C1)

This second table is written from the claim's words — the canonical ITU
dit/dah patterns — independently of the source, to be compared with the
`MORSE` table above. -/

/-- A canonical Morse symbol: a dit or a dah. -/
inductive Sym where
  | dit : Sym
  | dah : Sym
deriving DecidableEq, Repr

open Sym in
/-- Canonical International Morse Code patterns for `a`..`z`. -/
def canonicalMorse : List (List Sym) := [
  [dit, dah],                -- a
  [dah, dit, dit, dit],      -- b
  [dah, dit, dah, dit],      -- c
  [dah, dit, dit],           -- d
  [dit],                     -- e
  [dit, dit, dah, dit],      -- f
  [dah, dah, dit],           -- g
  [dit, dit, dit, dit],      -- h
  [dit, dit],                -- i
  [dit, dah, dah, dah],      -- j
  [dah, dit, dah],           -- k
  [dit, dah, dit, dit],      -- l
  [dah, dah],                -- m
  [dah, dit],                -- n
  [dah, dah, dah],           -- o
  [dit, dah, dah, dit],      -- p
  [dah, dah, dit, dah],      -- q
  [dit, dah, dit],           -- r
  [dit, dit, dit],           -- s
  [dah],                     -- t
  [dit, dit, dah],           -- u
  [dit, dit, dit, dah],      -- v
  [dit, dah, dah],           -- w
  [dah, dit, dit, dah],      -- x
  [dah, dit, dah, dah],      -- y
  [dah, dah, dit, dit]]      -- z

/-- Duration of a canonical symbol: DIT for a dit, DAH for a dah. -/
def symDuration : Sym → Nat
  | Sym.dit => DIT
  | Sym.dah => DAH

end ArduinoMorse

namespace ArduinoMorse

/-- Claim C1: for every letter `a`..`z`, the non-sentinel entries of that
letter's row of the `MORSE` table are exactly the canonical International
Morse pattern for the letter, with `DIT` for each dit and `DAH` for each
dah in order. -/
theorem morse_table_matches_canonical :
    ∀ i < 26, pulsesOf i = (canonicalMorse.getD i []).map symDuration := by
  decide

/-- Witness for C1 at the letter `s` (index 18): its row's pulses are three
dits. -/
theorem morse_table_matches_canonical_s :
    pulsesOf 18 = [DIT, DIT, DIT] := by
  have h := morse_table_matches_canonical 18 (by decide)
  rw [h]; decide

/-- Claim C2: every row of the `MORSE` table contains the sentinel `END`
within its 5 entries; in particular the row for `v` (index 21), whose
initializer lists only four pulses, gets its sentinel from C++ aggregate
zero-initialization at index 4. -/
theorem morse_rows_contain_sentinel :
    (∀ i < 26, ∃ j < 5, (row i).getD j 1 = END) ∧
      (row 21).getD 4 1 = END ∧ (row 21).length = 5 := by
  refine ⟨by decide, by decide, by decide⟩

/-- Witness for C2 at the row for `a` (index 0): the sentinel sits at
index 2. -/
theorem morse_rows_contain_sentinel_a :
    ∃ j < 5, (row 0).getD j 1 = END := by
  exact morse_rows_contain_sentinel.1 0 (by decide)

/-- Claim C5: the duration constants satisfy `DAH = 3 * DIT`, with
`DIT` equal to one `UNIT` and `DAH` to three. -/
theorem dah_is_three_dits :
    DAH = 3 * DIT ∧ DIT = UNIT ∧ DAH = 3 * UNIT := by
  decide

/-- Claim C9: in every row of `MORSE`, every entry before the first sentinel
is exactly `DIT` or `DAH`, and neither equals the sentinel value 0, so `END`
unambiguously terminates each letter's sequence. -/
theorem morse_pulses_are_dit_or_dah :
    (∀ i < 26, ∀ d ∈ pulsesOf i, d = DIT ∨ d = DAH) ∧
      DIT ≠ END ∧ DAH ≠ END := by
  refine ⟨by decide, by decide, by decide⟩

/-- Witness for C9 at the row for `a` (index 0), whose first pulse is a
dit. -/
theorem morse_pulses_are_dit_or_dah_a :
    DIT = DIT ∨ DIT = DAH := by
  exact morse_pulses_are_dit_or_dah.1 0 (by decide) DIT (by decide)

end ArduinoMorse

namespace ArduinoMorse

/-! ## The sender state machine

The member-function bodies of `MorseSender` are not among the available
sources (src/morse.h declares them only), so the operations below are
modelled from the specification, sections 3, 4.2 and 8. -/

/-- The millisecond clock is an `unsigned long` (32 bits on AVR): values and
stored timestamps live modulo `2^32`. -/
def MILLIS_MOD : Nat := 2 ^ 32

/-- Modelled from the spec: the elapsed-time computation of
`continueSending` — unsigned 32-bit subtraction of the stored
`lastChangedMillis` from the current clock value, which the spec requires to
"remain correct across timestamp wraparound (unsigned arithmetic
semantics)". -/
def elapsedMillis (now last : Nat) : Nat :=
  (now % MILLIS_MOD + (MILLIS_MOD - last % MILLIS_MOD)) % MILLIS_MOD

/-- Modelled from the spec: the `MorseSender` mutable state — the message,
the index of the character being sent, the timing buffer with its cursor,
the timestamp of the last output transition, plus the "currently sending"
flag the spec asks implementations to guard with.  `setOnCalls` counts the
invocations of the `setOn` output primitive so that claims about the output
never being asserted can be stated. -/
structure SenderState where
  pin : Nat
  message : List Char
  messageIndex : Nat
  timingBuffer : List Nat
  timingIndex : Nat
  lastChangedMillis : Nat
  sending : Bool
  outputOn : Bool
  setOnCalls : Nat
deriving DecidableEq, Repr

/-- Lowercase letter index for a character, case-insensitively
(`a`..`z` and `A`..`Z` map to 0..25), `none` otherwise. -/
def lowerIndex (c : Char) : Option Nat :=
  if 97 ≤ c.toNat ∧ c.toNat ≤ 122 then some (c.toNat - 97)
  else if 65 ≤ c.toNat ∧ c.toNat ≤ 90 then some (c.toNat - 65)
  else none

/-- Modelled from the spec: expansion of one letter's pulses into buffer
contents — pulses at even positions, one-unit inter-symbol gaps at odd
positions, the final gap widened to the inter-character gap (`DAH`), then
the `END` sentinel. -/
def expandPulses : List Nat → List Nat
  | [] => [END]
  | [p] => [p, DAH, END]
  | p :: q :: rest => p :: DIT :: expandPulses (q :: rest)

/-- Buffer contents for letter index `i`. -/
def letterTimings (i : Nat) : List Nat := expandPulses (pulsesOf i)

/-- Modelled from the spec: `fillTimings` — fill the timing buffer for one
character and return the buffer together with "the index at which to start
within the new timing sequence" (src/morse.h line 87).  A letter starts at
its first pulse; a space is a word boundary contributing only an
inter-character gap, started at an odd (off) index; any other character is
skipped, contributing nothing. -/
def fillTimings (c : Char) : List Nat × Nat :=
  match lowerIndex c with
  | some i => (letterTimings i, 0)
  | none => if c = ' ' then ([END, DAH, END], 1) else ([END], 0)

/-- Buffer entry at index `i`; reading past the stored entries yields the
sentinel. -/
def bufAt (buf : List Nat) (i : Nat) : Nat := buf.getD i END

/-- Whether the output is asserted at buffer position `i`: pulses sit at
even positions (spec section 3 invariant), and the sentinel is never a
pulse. -/
def posOn (buf : List Nat) (i : Nat) : Bool :=
  i % 2 == 0 && bufAt buf i != END

/-- Modelled from the spec: the `MorseSender(outputPin)` constructor —
stores the pin; no message, nothing in progress. -/
def mkSender (outputPin : Nat) : SenderState :=
  { pin := outputPin, message := [], messageIndex := 0,
    timingBuffer := [END], timingIndex := 0, lastChangedMillis := 0,
    sending := false, outputOn := false, setOnCalls := 0 }

/-- Modelled from the spec: `setMessage` — replaces the message, cancels any
in-progress send (no residual "on" state lingers), resets the message
position and clears the timing buffer; does not start transmission. -/
def setMessage (s : SenderState) (m : List Char) : SenderState :=
  { s with message := m, messageIndex := 0, timingBuffer := [END],
           timingIndex := 0, sending := false, outputOn := false }

/-- Modelled from the spec: `startSending` — transitions to Sending,
performs the first buffer fill for the first character, asserts the output
according to the first timing entry and records the timestamp; an empty
message has no first character to fill from, so nothing is started and the
output is never asserted (spec section 8). -/
def startSending (s : SenderState) (now : Nat) : SenderState :=
  match s.message with
  | [] => { s with messageIndex := 0, sending := false, outputOn := false }
  | c :: _ =>
    let fill := fillTimings c
    let turnOn := posOn fill.1 fill.2
    { s with messageIndex := 0, timingBuffer := fill.1, timingIndex := fill.2,
             sending := true, outputOn := turnOn,
             setOnCalls := s.setOnCalls + (if turnOn then 1 else 0),
             lastChangedMillis := now % MILLIS_MOD }

/-- Modelled from the spec: `continueSending` — the non-blocking polling
step (spec section 4.2): return `false` as an inert no-op when not sending;
return `true` while the current timing entry has not elapsed; otherwise
advance to the next entry, toggling the output to match its pulse/gap
nature; on reaching the sentinel, advance the message position and refill
for the next character, or, when the message is exhausted, leave the output
off, leave the Sending state and return `false`. -/
def continueSending (s : SenderState) (now : Nat) : Bool × SenderState :=
  if s.sending = false then (false, s)
  else if elapsedMillis now s.lastChangedMillis < bufAt s.timingBuffer s.timingIndex then
    (true, s)
  else
    let ti := s.timingIndex + 1
    if bufAt s.timingBuffer ti ≠ END then
      let turnOn := posOn s.timingBuffer ti
      (true, { s with timingIndex := ti, outputOn := turnOn,
                      setOnCalls := s.setOnCalls + (if turnOn then 1 else 0),
                      lastChangedMillis := now % MILLIS_MOD })
    else
      let mi := s.messageIndex + 1
      if mi < s.message.length then
        let fill := fillTimings (s.message.getD mi ' ')
        let turnOn := posOn fill.1 fill.2
        (true, { s with messageIndex := mi, timingBuffer := fill.1,
                        timingIndex := fill.2, outputOn := turnOn,
                        setOnCalls := s.setOnCalls + (if turnOn then 1 else 0),
                        lastChangedMillis := now % MILLIS_MOD })
      else
        (false, { s with messageIndex := mi, sending := false,
                         outputOn := false,
                         lastChangedMillis := now % MILLIS_MOD })

/-! ## Speaker variant -/

/-- The `SpeakerMorseSender` adds a tone frequency to the base sender. -/
structure SpeakerState where
  base : SenderState
  frequency : Nat
deriving DecidableEq, Repr

/-- Modelled from the spec: the `SpeakerMorseSender(outputPin,
toneFrequency)` constructor sets the frequency at construction
(src/morse.h line 143 declares it). -/
def mkSpeakerSender (outputPin : Nat) (toneFrequency : Nat) : SpeakerState :=
  { base := mkSender outputPin, frequency := toneFrequency }

/-- The header's default argument: `unsigned int toneFrequency=1046`
(src/morse.h line 143, "higher octaves = 523.251, 1046.502").  Constructing
without the argument constructs with this value. -/
def mkSpeakerSenderDefault (outputPin : Nat) : SpeakerState :=
  mkSpeakerSender outputPin 1046

/-! ## Concrete demonstration states (used by witnesses) -/

/-- A sender on pin 13 carrying the one-letter message "e", just started at
time 0. -/
def demoE : SenderState := startSending (setMessage (mkSender 13) ['e']) 0

/-- `demoE` polled at time 400: the 100 ms dit has elapsed, so the cursor
has advanced to the trailing inter-character gap. -/
def demoE2 : SenderState := (continueSending demoE 400).2

end ArduinoMorse

namespace ArduinoMorse

/-! ## Helper lemmas -/

/-- A character with a lowercase index indexes within the 26-row table. -/
theorem lowerIndex_lt_26 (c : Char) (i : Nat) (h : lowerIndex c = some i) :
    i < 26 := by
  unfold lowerIndex at h
  split at h
  · rename_i hc
    cases h
    omega
  · split at h
    · rename_i hc
      cases h
      omega
    · cases h

/-- Every letter's expanded buffer holds at most `MAX_TIMINGS + 1`
entries. -/
theorem letterTimings_length_le :
    ∀ i < 26, (letterTimings i).length ≤ MAX_TIMINGS + 1 := by
  decide

/-- Every entry of every letter's expanded buffer is the sentinel, one
unit, or three units. -/
theorem letterTimings_entries :
    ∀ i < 26, ∀ d ∈ letterTimings i, d = END ∨ d = UNIT ∨ d = 3 * UNIT := by
  decide

end ArduinoMorse

namespace ArduinoMorse

/-- Claim C3: a `continueSending` call returns `true` exactly when the
sender remains in the Sending state afterwards; from a non-sending state it
is an inert no-op returning `false` (so no `true` return can follow the
`false` return without an intervening restart); and a `false` return from a
Sending state happens exactly at the step where the message position passes
the end of the message. -/
theorem continueSending_true_iff_remaining (s : SenderState) (now : Nat) :
    (continueSending s now).1 = (continueSending s now).2.sending ∧
    (s.sending = false → continueSending s now = (false, s)) ∧
    (s.sending = true → (continueSending s now).1 = false →
      s.message.length ≤ (continueSending s now).2.messageIndex) := by
  cases hs : s.sending with
  | false => simp [continueSending, hs]
  | true =>
    simp only [continueSending, hs]
    norm_num
    split
    · simp [hs]
    · split
      · split
        · simp
        · simp
          omega
      · simp

/-- Witness for C3: on a freshly constructed (non-sending) sender the call
is an inert no-op returning `false`, and the poll that exhausts the
one-letter message "e" moves the message position to its length 1. -/
theorem continueSending_true_iff_remaining_w :
    continueSending (mkSender 13) 0 = (false, mkSender 13) ∧
      1 ≤ (continueSending demoE2 800).2.messageIndex := by
  constructor
  · exact (continueSending_true_iff_remaining (mkSender 13) 0).2.1 rfl
  · have h := (continueSending_true_iff_remaining demoE2 800).2.2
      (by decide) (by decide)
    have hm : demoE2.message.length = 1 := by decide
    rw [hm] at h
    exact h

/-- Claim C4: every letter expands to at most `MAX_TIMINGS` on/off
entries (`2 * pulses ≤ 10`), and the buffer-fill step for any character
produces at most `MAX_TIMINGS + 1` entries, the declared capacity of
`timingBuffer[MAX_TIMINGS+1]` — nothing is truncated for the defined
alphabet. -/
theorem letter_timings_fit_buffer :
    (∀ i < 26, 2 * (pulsesOf i).length ≤ MAX_TIMINGS) ∧
    (∀ c : Char, ((fillTimings c).1).length ≤ MAX_TIMINGS + 1) := by
  constructor
  · decide
  · intro c
    cases h : lowerIndex c with
    | some i =>
      simp only [fillTimings, h]
      exact letterTimings_length_le i (lowerIndex_lt_26 c i h)
    | none =>
      simp only [fillTimings, h]
      split
      · decide
      · decide

/-- Witness for C4 at the letter `j` (index 9), one of the four-pulse
letters: `2 * 4 ≤ 10`. -/
theorem letter_timings_fit_buffer_w :
    2 * (pulsesOf 9).length ≤ MAX_TIMINGS :=
  letter_timings_fit_buffer.1 9 (by decide)

/-- Claim C6: starting a sender whose message is empty and then polling it
returns `false`, and the output primitive `setOn` is never invoked in that
sequence. -/
theorem empty_message_sends_nothing (s : SenderState) (t1 t2 : Nat)
    (h : s.message = []) :
    (continueSending (startSending s t1) t2).1 = false ∧
    (startSending s t1).setOnCalls = s.setOnCalls ∧
    (continueSending (startSending s t1) t2).2.setOnCalls = s.setOnCalls := by
  unfold startSending
  rw [h]
  simp [continueSending]

/-- Witness for C6: a fresh sender on pin 13 holds the empty message;
starting it at time 0 and polling at time 5 returns `false` with zero
`setOn` calls. -/
theorem empty_message_sends_nothing_w :
    (continueSending (startSending (mkSender 13) 0) 5).1 = false ∧
    (startSending (mkSender 13) 0).setOnCalls = (mkSender 13).setOnCalls ∧
    (continueSending (startSending (mkSender 13) 0) 5).2.setOnCalls
      = (mkSender 13).setOnCalls :=
  empty_message_sends_nothing (mkSender 13) 0 5 rfl

/-- Claim C7: the elapsed-time computation is unsigned 32-bit modular
subtraction of the stored last-transition timestamp from the current clock
value, so for any true elapsed duration `d` below the wrap bound it
recovers `d` exactly, even when the clock value wraps past `2^32` between
the two transitions. -/
theorem elapsed_wraparound_correct (last d : Nat) (h : d < MILLIS_MOD) :
    elapsedMillis ((last + d) % MILLIS_MOD) last = d := by
  have hm : MILLIS_MOD = 4294967296 := by norm_num [MILLIS_MOD]
  simp only [elapsedMillis, hm] at *
  omega

/-- Witness for C7 across an actual wrap: 100 ms before the 32-bit clock
wraps, a 300 ms interval ends at clock value 200, and the computed elapsed
time is still 300. -/
theorem elapsed_wraparound_correct_w :
    300 < MILLIS_MOD ∧ elapsedMillis 200 (MILLIS_MOD - 100) = 300 := by
  refine ⟨by decide, ?_⟩
  have h := elapsed_wraparound_correct (MILLIS_MOD - 100) 300 (by decide)
  have e : (MILLIS_MOD - 100 + 300) % MILLIS_MOD = 200 := by decide
  rw [e] at h
  exact h

/-- Claim C8: constructing a `SpeakerMorseSender` without the
`toneFrequency` argument uses the header's default of 1046 Hz, and an
explicit argument sets exactly that frequency. -/
theorem speaker_tone_frequency (p f : Nat) :
    (mkSpeakerSenderDefault p).frequency = 1046 ∧
    (mkSpeakerSender p f).frequency = f :=
  ⟨rfl, rfl⟩

/-- Claim C10: the base timing unit is the fixed constant 100 ms, a dit
lasts 100 ms and a dah 300 ms, and every duration the buffer-fill step can
ever emit, for any character, is 0, 100 or 300 ms — no construction or
runtime parameter enters the timing. -/
theorem unit_is_fixed_100ms :
    UNIT = 100 ∧ DIT = 100 ∧ DAH = 300 ∧
    (∀ c : Char, ∀ d ∈ (fillTimings c).1, d = END ∨ d = UNIT ∨ d = 3 * UNIT) := by
  refine ⟨rfl, rfl, rfl, ?_⟩
  intro c
  cases h : lowerIndex c with
  | some i =>
    simp only [fillTimings, h]
    exact letterTimings_entries i (lowerIndex_lt_26 c i h)
  | none =>
    simp only [fillTimings, h]
    split
    · decide
    · decide

/-- Witness for C10 at the letter `e`: the lone dit in its buffer is one
`UNIT`. -/
theorem unit_is_fixed_100ms_w :
    DIT = END ∨ DIT = UNIT ∨ DIT = 3 * UNIT :=
  unit_is_fixed_100ms.2.2.2 'e' DIT (by decide)

end ArduinoMorse
